import Mathlib

/-!
# Verification of the witnet-rust wire-encoding layer

A shallow embedding of the `ProtobufConvert` conversion layer
(`data_structures/src/proto/mod.rs`), the signature subsystem
(`crypto/src/signature.rs`) and the message builders of witnet-rust,
together with proofs of the specified conversion properties.

Machine integers are modelled as `Nat` (unsigned) or `Int` (signed), with
the Rust-type range carried as an explicit hypothesis where a theorem
needs it.  Byte sequences are `List Nat`, each element a byte value.
Fallible Rust functions returning `Result<T, Error>` are modelled as
`Except String T`; a reachable `unwrap` (a potential panic) is modelled
explicitly with the `RunResult` type so that panic-freedom is a theorem,
not an assumption.
-/

namespace Witnet

/-! ## Narrowing integer conversions

`impl ProtobufConvert for i8 / u16 / i16` in `proto/mod.rs`.  The wire
type of `i8` and `i16` is `i32` (modelled as `Int`), the wire type of
`u16` is `u32` (modelled as `Nat`).  `from_pb` checks `pb <= max` with
`ensure!` and then performs a Rust `as` cast, which truncates to the low
bits in two's complement. -/

/-- Rust `pb as i8` for `pb : i32`: two's-complement truncation to 8 bits. -/
def castToI8 (pb : Int) : Int := (pb + 128) % 256 - 128

/-- Rust `pb as i16` for `pb : i32`: two's-complement truncation to 16 bits. -/
def castToI16 (pb : Int) : Int := (pb + 32768) % 65536 - 32768

/-- `<i8 as ProtobufConvert>::to_pb`: `i32::from(*self)`, a lossless widening. -/
def i8_to_pb (x : Int) : Int := x

/-- `<i8 as ProtobufConvert>::from_pb`: `ensure!(pb <= i8::max_value()); Ok(pb as i8)`. -/
def i8_from_pb (pb : Int) : Except String Int :=
  if pb ≤ 127 then .ok (castToI8 pb) else .error "Integer out of range"

/-- `<i16 as ProtobufConvert>::to_pb`: `i32::from(*self)`, a lossless widening. -/
def i16_to_pb (x : Int) : Int := x

/-- `<i16 as ProtobufConvert>::from_pb`: `ensure!(pb <= i16::max_value()); Ok(pb as i16)`. -/
def i16_from_pb (pb : Int) : Except String Int :=
  if pb ≤ 32767 then .ok (castToI16 pb) else .error "Integer out of range"

/-- `<u16 as ProtobufConvert>::to_pb`: `u32::from(*self)`, a lossless widening. -/
def u16_to_pb (x : Nat) : Nat := x

/-- `<u16 as ProtobufConvert>::from_pb`: `ensure!(pb <= u16::max_value()); Ok(pb as u16)`.
The `as` cast truncates to the low 16 bits, reached only when `pb ≤ 65535`. -/
def u16_from_pb (pb : Nat) : Except String Nat :=
  if pb ≤ 65535 then .ok (pb % 65536) else .error "Integer out of range"

/-! ## Big-endian byte packing

`byteorder`'s `write_u32::<BigEndian>` / `write_u16::<BigEndian>` append
fixed-width big-endian bytes; `read_u32` / `read_u16` consume them from
the front of a slice, failing when too few bytes remain (the `unwrap` on
that failure is modelled at the use site). -/

/-- `bytes.write_u32::<BigEndian>(n)`: the four big-endian bytes of a `u32`. -/
def u32_be_bytes (n : Nat) : List Nat :=
  [n / 16777216 % 256, n / 65536 % 256, n / 256 % 256, n % 256]

/-- `bytes.write_u16::<BigEndian>(n)`: the two big-endian bytes of a `u16`. -/
def u16_be_bytes (n : Nat) : List Nat :=
  [n / 256 % 256, n % 256]

/-- `bytes.read_u32::<BigEndian>()`: consume four bytes from the front,
returning the value and the rest; `none` when fewer than four remain. -/
def read_u32_be : List Nat → Option (Nat × List Nat)
  | b0 :: b1 :: b2 :: b3 :: rest =>
    some (b0 * 16777216 + b1 * 65536 + b2 * 256 + b3, rest)
  | _ => none

/-- `bytes.read_u16::<BigEndian>()`: consume two bytes from the front,
returning the value and the rest; `none` when fewer than two remain. -/
def read_u16_be : List Nat → Option (Nat × List Nat)
  | b0 :: b1 :: rest => some (b0 * 256 + b1, rest)
  | _ => none

/-! ## Addresses

`types::Address` and `types::IpAddress`, and
`impl ProtobufConvert for types::Address` in `proto/mod.rs`.  The wire
struct `witnet::Address` carries a single byte-sequence field `address`,
modelled directly as the byte list. -/

/-- `types::IpAddress`: `Ipv4 { ip: u32 }` or `Ipv6 { ip0..ip3: u32 }`. -/
inductive IpAddress where
  | Ipv4 (ip : Nat)
  | Ipv6 (ip0 ip1 ip2 ip3 : Nat)
  deriving DecidableEq, Repr

/-- `types::Address`: an IP address together with a `u16` port. -/
structure Address where
  ip : IpAddress
  port : Nat
  deriving DecidableEq, Repr

/-- `Address::to_pb`: big-endian address bytes followed by the big-endian
port, 4+2 bytes for Ipv4 and 16+2 bytes for Ipv6. -/
def Address.to_pb (a : Address) : List Nat :=
  (match a.ip with
    | .Ipv4 ip => u32_be_bytes ip
    | .Ipv6 ip0 ip1 ip2 ip3 =>
      u32_be_bytes ip0 ++ u32_be_bytes ip1 ++ u32_be_bytes ip2 ++ u32_be_bytes ip3)
  ++ u16_be_bytes a.port

/-- The result of running code that may hit a failing `unwrap`: either the
run panics, or it returns a value. -/
inductive RunResult (α : Type) where
  | panicked
  | value (a : α)
  deriving DecidableEq, Repr

/-- `Address::from_pb`: match on the byte length (6 = Ipv4, 18 = Ipv6, any
other length is an error), then read the fields big-endian; each read is
`unwrap`ped, so a failing read panics. -/
def Address.from_pb (bytes : List Nat) : RunResult (Except String Address) :=
  if bytes.length = 6 then
    match read_u32_be bytes with
    | none => .panicked
    | some (ip, rest) =>
      match read_u16_be rest with
      | none => .panicked
      | some (port, _) => .value (.ok ⟨.Ipv4 ip, port⟩)
  else if bytes.length = 18 then
    match read_u32_be bytes with
    | none => .panicked
    | some (ip0, rest0) =>
      match read_u32_be rest0 with
      | none => .panicked
      | some (ip1, rest1) =>
        match read_u32_be rest1 with
        | none => .panicked
        | some (ip2, rest2) =>
          match read_u32_be rest2 with
          | none => .panicked
          | some (ip3, rest3) =>
            match read_u16_be rest3 with
            | none => .panicked
            | some (port, _) => .value (.ok ⟨.Ipv6 ip0 ip1 ip2 ip3, port⟩)
  else .value (.error "Invalid address size")

/-! ## Signatures

`chain::Signature` / `chain::Secp256k1Signature` and
`impl ProtobufConvert for chain::Signature` in `proto/mod.rs`.  The wire
struct `witnet::Signature` holds a protobuf oneof `kind` whose single
variant `s` carries a `witnet::Secp256k1Signature` with two byte-sequence
fields `r` and `s`; an unset oneof is `none`. -/

/-- The wire struct `witnet::Secp256k1Signature`: byte-sequence fields
`r` and `s`. -/
structure Secp256k1SignaturePb where
  r : List Nat
  s : List Nat
  deriving DecidableEq, Repr

/-- The wire struct `witnet::Signature`: its oneof `kind` is either unset
or the `s` variant carrying a `witnet::Secp256k1Signature`. -/
abbrev SignaturePb := Option Secp256k1SignaturePb

/-- `chain::Secp256k1Signature`: `r: [u8; 32]`, `s: [u8; 32]`, `v: u8`.
The fixed array sizes are carried as hypotheses where theorems need them. -/
structure Secp256k1Signature where
  r : List Nat
  s : List Nat
  v : Nat
  deriving DecidableEq, Repr

/-- `chain::Signature`: a sum type with the single variant `Secp256k1`. -/
inductive Signature where
  | Secp256k1 (sig : Secp256k1Signature)
  deriving DecidableEq, Repr

/-- `Signature::to_pb`: set the oneof to the `s` variant, with `r` the raw
`r` bytes and `s` the 32 `s` bytes followed by the recovery byte `v`. -/
def Signature.to_pb : Signature → SignaturePb
  | .Secp256k1 sig => some ⟨sig.r, sig.s ++ [sig.v]⟩

/-- `Signature::from_pb`: require the `s` oneof variant with `r` of length
32 and `s` of length 33; split the 33 bytes into the 32-byte `s` and the
recovery byte `v`. -/
def Signature.from_pb (pb : SignaturePb) : Except String Signature :=
  match pb with
  | some x =>
    if x.r.length = 32 ∧ x.s.length = 33 then
      .ok (.Secp256k1 ⟨x.r, x.s.take 32, x.s.getD 32 0⟩)
    else .error "Invalid signature byte length"
  | none => .error "Invalid signature type"

/-! ## Leadership proofs

`chain::LeadershipProof` and its `ProtobufConvert` impl.  The wire struct
`witnet::Block_LeadershipProof` has a `u64` field `influence` and an
optional oneof `optional_block_sig` whose single variant carries a
`witnet::Signature` wire struct. -/

/-- `chain::LeadershipProof`: an optional block signature and a `u64`
influence. -/
structure LeadershipProof where
  block_sig : Option Signature
  influence : Nat
  deriving DecidableEq, Repr

/-- The wire struct `witnet::Block_LeadershipProof`. -/
structure LeadershipProofPb where
  influence : Nat
  optional_block_sig : Option SignaturePb

/-- `LeadershipProof::to_pb`: copy `influence`; set the oneof only when
`block_sig` is present. -/
def LeadershipProof.to_pb (p : LeadershipProof) : LeadershipProofPb :=
  ⟨p.influence, p.block_sig.map Signature.to_pb⟩

/-- `LeadershipProof::from_pb`: copy `influence`; when the oneof is set,
convert the inner signature, propagating its error. -/
def LeadershipProof.from_pb (pb : LeadershipProofPb) : Except String LeadershipProof :=
  match pb.optional_block_sig with
  | some sig => do
    let s ← Signature.from_pb sig
    pure ⟨some s, pb.influence⟩
  | none => .ok ⟨none, pb.influence⟩

/-! ## Sequences

`impl<T: ProtobufConvert> ProtobufConvert for Vec<T>`: element-wise
conversion, with `from_pb` collecting into `Result` and therefore
stopping at the first element error. -/

/-- `Vec::<T>::to_pb`: `self.iter().map(|v| v.to_pb()).collect()`. -/
def vec_to_pb (f : α → β) (v : List α) : List β := v.map f

/-- `Vec::<T>::from_pb`:
`pb.into_iter().map(from_pb).collect::<Result<Vec<_>, _>>()`, which
short-circuits at the first element error. -/
def vec_from_pb (g : β → Except ε α) : List β → Except ε (List α)
  | [] => .ok []
  | x :: xs =>
    match g x with
    | .error e => .error e
    | .ok y =>
      match vec_from_pb g xs with
      | .error e => .error e
      | .ok ys => .ok (y :: ys)

/-! ## Fixed-length byte arrays

`impl ProtobufConvert for [u8; 20]` and `[u8; 32]`: the wire form is a
byte sequence whose length must equal the array size exactly
(`ensure!(pb.len() == N, "Invalid array length")`), after which
`copy_from_slice` fills the array with exactly those bytes. -/

/-- `<[u8; 20]>::to_pb`: `self.to_vec()`. -/
def array20_to_pb (a : List Nat) : List Nat := a

/-- `<[u8; 20]>::from_pb`: length must be exactly 20; the array then holds
the input bytes. -/
def array20_from_pb (pb : List Nat) : Except String (List Nat) :=
  if pb.length = 20 then .ok pb else .error "Invalid array length"

/-- `<[u8; 32]>::to_pb`: `self.to_vec()`. -/
def array32_to_pb (a : List Nat) : List Nat := a

/-- `<[u8; 32]>::from_pb`: length must be exactly 32; the array then holds
the input bytes. -/
def array32_from_pb (pb : List Nat) : Except String (List Nat) :=
  if pb.length = 32 then .ok pb else .error "Invalid array length"

/-! ## Message envelope and builders

The `Message` / `Command` types and the builder functions live in
`data_structures/src/builders.rs` and `types.rs`, which are exercised by
`data_structures/tests/builders.rs`; only the test file is available, so
the builder itself is modelled from the spec. -/

/-- A socket address as handed to the builders: an IPv4 socket address
carries four octets and a port; an IPv6 one carries the four 32-bit
segments and a port. -/
inductive SocketAddr where
  | v4 (a b c d : Nat) (port : Nat)
  | v6 (ip0 ip1 ip2 ip3 : Nat) (port : Nat)
  deriving DecidableEq, Repr

/-- Modelled from the spec: the conversion from a socket address to
`Address` used by the builders (`builders.rs` is not in the sources).
An IPv4 socket address packs its four octets big-endian into the single
`u32` of `IpAddress::Ipv4`; the port is copied. -/
def socketAddrToAddress : SocketAddr → Address
  | .v4 a b c d port => ⟨.Ipv4 (a * 16777216 + b * 65536 + c * 256 + d), port⟩
  | .v6 ip0 ip1 ip2 ip3 port => ⟨.Ipv6 ip0 ip1 ip2 ip3, port⟩

/-- The `Command` sum type, restricted to the variants the claims need:
the `Peers` command carries a list of peer addresses. -/
inductive Command where
  | Peers (peers : List Address)
  deriving DecidableEq, Repr

/-- `Message { kind: Command, magic: u16 }`. -/
structure Message where
  kind : Command
  magic : Nat
  deriving DecidableEq, Repr

/-- Modelled from the spec: `Message::build_peers(magic, socket_addrs)`
(`builders.rs` is not in the sources) converts each socket address to an
`Address`, preserving order, and wraps the list in a `Peers` command with
the supplied magic. -/
def build_peers (magic : Nat) (addrs : List SocketAddr) : Message :=
  ⟨.Peers (addrs.map socketAddrToAddress), magic⟩

/-! ## Signature subsystem

`crypto/src/signature.rs`.  `sign` and `verify` both start with
`Message::from_slice(data).unwrap()`; `Message::from_slice` belongs to
the external `secp256k1` crate, so it is modelled from the spec.  The
curve operations themselves are opaque to this layer and are passed in
as parameters; only the control flow around the `unwrap` is modelled. -/

/-- Modelled from the spec: `secp256k1::Message::from_slice(data)`
(external crate, not in the sources) succeeds exactly when `data` is a
32-byte digest, returning the digest. -/
def message_from_slice (data : List Nat) : Option (List Nat) :=
  if data.length = 32 then some data else none

/-- `sign(secret_key, data)`: `Message::from_slice(data).unwrap()` then
the curve signing operation `secpSign` on the digest.  A failing
`from_slice` makes the `unwrap` panic. -/
def sign (secpSign : List Nat → σ) (data : List Nat) : RunResult σ :=
  match message_from_slice data with
  | none => .panicked
  | some msg => .value (secpSign msg)

/-- `verify(public_key, data, sig)`: `Message::from_slice(data).unwrap()`
then the curve verification `secpVerify` on the digest, its failure
mapped to `VerifyError`.  A failing `from_slice` makes the `unwrap`
panic. -/
def verify (secpVerify : List Nat → Bool) (data : List Nat) :
    RunResult (Except String Unit) :=
  match message_from_slice data with
  | none => .panicked
  | some msg =>
    .value (if secpVerify msg then .ok () else .error "Fail in verify process")

/-! ## Well-formedness predicates

The Rust types guarantee invariants the `Nat`/`Int`/`List` embedding
does not: a `u32` field is below `2^32`, a `u16` below `2^16`, a
`[u8; 32]` has length 32.  These predicates state exactly those
representability invariants. -/

/-- The Rust range invariant of an `IpAddress` value: every `u32` field
is below `2^32`. -/
def IpAddress.wf : IpAddress → Prop
  | .Ipv4 ip => ip < 4294967296
  | .Ipv6 ip0 ip1 ip2 ip3 =>
    ip0 < 4294967296 ∧ ip1 < 4294967296 ∧ ip2 < 4294967296 ∧ ip3 < 4294967296

/-- The Rust range invariant of an `Address`: a well-formed IP and a
`u16` port. -/
def Address.wf (a : Address) : Prop := a.ip.wf ∧ a.port < 65536

/-- The Rust array-length invariant of a `chain::Signature`: `r` and `s`
are `[u8; 32]` values. -/
def Signature.wf : Signature → Prop
  | .Secp256k1 sig => sig.r.length = 32 ∧ sig.s.length = 32

end Witnet

namespace Witnet

/-! ## C1: narrowing integer conversions -/

/-- C1 (as stated) is false: the claim says `i8::from_pb` succeeds and is
identity-preserving for every wide value not exceeding `i8`'s maximum,
but at wide value `-200` (which does not exceed 127) the code succeeds
with the wrapped value `56`, not the input. -/
theorem C1_counterexample :
    i8_from_pb (-200) = .ok 56 ∧ (56 : Int) ≠ -200 := by
  constructor
  · rfl
  · decide

/-- C1 (amended): `from_pb` on `i8`/`i16`/`u16` fails exactly for wide
values exceeding the narrow maximum; it succeeds identity-preservingly
on the narrow type's full range; for the signed types a wide value below
the narrow minimum is also accepted, returning the two's-complement
truncation of the input rather than the input itself; `to_pb` widens
losslessly. -/
theorem C1_narrow_int_conversion (pb : Int) (pbu : Nat) :
    (127 < pb → i8_from_pb pb = .error "Integer out of range") ∧
    (-128 ≤ pb → pb ≤ 127 → i8_from_pb pb = .ok pb) ∧
    (pb ≤ 127 → i8_from_pb pb = .ok (castToI8 pb)) ∧
    (32767 < pb → i16_from_pb pb = .error "Integer out of range") ∧
    (-32768 ≤ pb → pb ≤ 32767 → i16_from_pb pb = .ok pb) ∧
    (pb ≤ 32767 → i16_from_pb pb = .ok (castToI16 pb)) ∧
    (65535 < pbu → u16_from_pb pbu = .error "Integer out of range") ∧
    (pbu ≤ 65535 → u16_from_pb pbu = .ok pbu) ∧
    (∀ y : Int, i8_to_pb y = y) ∧ (∀ y : Int, i16_to_pb y = y) ∧
    (∀ y : Nat, u16_to_pb y = y) := by
  refine ⟨fun h => ?_, fun h1 h2 => ?_, fun h => ?_, fun h => ?_, fun h1 h2 => ?_,
    fun h => ?_, fun h => ?_, fun h => ?_, fun y => rfl, fun y => rfl, fun y => rfl⟩
  · simp only [i8_from_pb]
    rw [if_neg (by omega)]
  · simp only [i8_from_pb]
    rw [if_pos (by omega)]
    congr 1
    simp only [castToI8]
    rw [Int.emod_eq_of_lt (by omega) (by omega)]
    omega
  · simp only [i8_from_pb]
    rw [if_pos (by omega)]
  · simp only [i16_from_pb]
    rw [if_neg (by omega)]
  · simp only [i16_from_pb]
    rw [if_pos (by omega)]
    congr 1
    simp only [castToI16]
    rw [Int.emod_eq_of_lt (by omega) (by omega)]
    omega
  · simp only [i16_from_pb]
    rw [if_pos (by omega)]
  · simp only [u16_from_pb]
    rw [if_neg (by omega)]
  · simp only [u16_from_pb]
    rw [if_pos (by omega)]
    congr 1
    omega

/-- Witness for C1 (amended) at concrete inputs. -/
theorem C1_witness :
    i8_from_pb 300 = .error "Integer out of range" ∧
    i8_from_pb (-5) = .ok (-5) ∧
    i16_from_pb 40000 = .error "Integer out of range" ∧
    i16_from_pb (-3) = .ok (-3) ∧
    u16_from_pb 70000 = .error "Integer out of range" ∧
    u16_from_pb 8000 = .ok 8000 ∧
    i8_from_pb (-200) = .ok (castToI8 (-200)) :=
  ⟨(C1_narrow_int_conversion 300 0).1 (by decide),
   (C1_narrow_int_conversion (-5) 0).2.1 (by decide) (by decide),
   (C1_narrow_int_conversion 40000 0).2.2.2.1 (by decide),
   (C1_narrow_int_conversion (-3) 0).2.2.2.2.1 (by decide) (by decide),
   (C1_narrow_int_conversion 0 70000).2.2.2.2.2.2.1 (by decide),
   (C1_narrow_int_conversion 0 8000).2.2.2.2.2.2.2.1 (by decide),
   (C1_narrow_int_conversion (-200) 0).2.2.1 (by decide)⟩

/-! ## C7: fixed-length byte arrays -/

/-- C7: `from_pb` on the 20-byte (resp. 32-byte) array type fails for
every input length other than 20 (resp. 32) and succeeds with exactly
the input bytes at the right length, so the round trip through `to_pb`
is the identity on well-sized arrays. -/
theorem C7_fixed_arrays (pb a : List Nat) :
    (pb.length ≠ 20 → array20_from_pb pb = .error "Invalid array length") ∧
    (pb.length = 20 → array20_from_pb pb = .ok pb) ∧
    (pb.length ≠ 32 → array32_from_pb pb = .error "Invalid array length") ∧
    (pb.length = 32 → array32_from_pb pb = .ok pb) ∧
    (a.length = 20 → array20_from_pb (array20_to_pb a) = .ok a) ∧
    (a.length = 32 → array32_from_pb (array32_to_pb a) = .ok a) := by
  refine ⟨fun h => ?_, fun h => ?_, fun h => ?_, fun h => ?_, fun h => ?_, fun h => ?_⟩ <;>
    simp [array20_from_pb, array32_from_pb, array20_to_pb, array32_to_pb, h]

/-- Witness for C7 at concrete inputs: a 3-byte input is rejected by both
array types, and 20- and 32-byte arrays round-trip. -/
theorem C7_witness :
    array20_from_pb [1, 2, 3] = .error "Invalid array length" ∧
    array20_from_pb (List.replicate 20 7) = .ok (List.replicate 20 7) ∧
    array32_from_pb [1, 2, 3] = .error "Invalid array length" ∧
    array32_from_pb (array32_to_pb (List.replicate 32 9)) = .ok (List.replicate 32 9) :=
  ⟨(C7_fixed_arrays [1, 2, 3] []).1 (by decide),
   (C7_fixed_arrays (List.replicate 20 7) []).2.1 (by decide),
   (C7_fixed_arrays [1, 2, 3] []).2.2.1 (by decide),
   (C7_fixed_arrays [] (List.replicate 32 9)).2.2.2.2.2 (by decide)⟩

/-! ## Address helper lemmas -/

/-- Reading four big-endian bytes written from a `u32` recovers the value
and leaves the rest of the input untouched. -/
theorem read_u32_be_of_bytes (n : Nat) (rest : List Nat) (h : n < 4294967296) :
    read_u32_be (u32_be_bytes n ++ rest) = some (n, rest) := by
  simp only [u32_be_bytes, List.cons_append, List.nil_append, read_u32_be]
  congr 2
  omega

/-- Reading two big-endian bytes written from a `u16` recovers the value
and leaves the rest of the input untouched. -/
theorem read_u16_be_of_bytes (n : Nat) (rest : List Nat) (h : n < 65536) :
    read_u16_be (u16_be_bytes n ++ rest) = some (n, rest) := by
  simp only [u16_be_bytes, List.cons_append, List.nil_append, read_u16_be]
  congr 2
  omega

/-- `read_u32_be` succeeds on any input of at least four bytes, consuming
exactly four. -/
theorem read_u32_be_total (bytes : List Nat) (h : 4 ≤ bytes.length) :
    ∃ v rest, read_u32_be bytes = some (v, rest) ∧ rest.length = bytes.length - 4 := by
  match bytes with
  | b0 :: b1 :: b2 :: b3 :: rest =>
    exact ⟨_, rest, rfl, by simp⟩

/-- `read_u16_be` succeeds on any input of at least two bytes, consuming
exactly two. -/
theorem read_u16_be_total (bytes : List Nat) (h : 2 ≤ bytes.length) :
    ∃ v rest, read_u16_be bytes = some (v, rest) ∧ rest.length = bytes.length - 2 := by
  match bytes with
  | b0 :: b1 :: rest =>
    exact ⟨_, rest, rfl, by simp⟩

/-- The wire form of an address has 6 bytes for Ipv4 and 18 for Ipv6. -/
theorem address_to_pb_length (a : Address) :
    (Address.to_pb a).length = match a.ip with
      | .Ipv4 _ => 6
      | .Ipv6 _ _ _ _ => 18 := by
  obtain ⟨ip, port⟩ := a
  cases ip <;> simp [Address.to_pb, u32_be_bytes, u16_be_bytes]

/-! ## C2: Address round trip -/

/-- C2: for every well-formed address (fields within their Rust ranges),
`from_pb` applied to `to_pb` returns the address unchanged, without
panicking. -/
theorem C2_address_roundtrip (a : Address) (h : a.wf) :
    Address.from_pb (Address.to_pb a) = .value (.ok a) := by
  obtain ⟨ip, port⟩ := a
  obtain ⟨hip, hport⟩ := h
  have hport2 : port < 65536 := hport
  cases ip with
  | Ipv4 ip =>
    simp only [IpAddress.wf] at hip
    simp [Address.from_pb, Address.to_pb, u32_be_bytes, u16_be_bytes,
      read_u32_be, read_u16_be]
    omega
  | Ipv6 ip0 ip1 ip2 ip3 =>
    simp only [IpAddress.wf] at hip
    simp [Address.from_pb, Address.to_pb, u32_be_bytes, u16_be_bytes,
      read_u32_be, read_u16_be]
    omega

/-- Witness for C2: the spec's concrete example round-trips, and both an
Ipv4 and an Ipv6 address are covered. -/
theorem C2_witness :
    Address.from_pb (Address.to_pb ⟨.Ipv4 3232235777, 8000⟩) =
      .value (.ok ⟨.Ipv4 3232235777, 8000⟩) ∧
    (Address.to_pb ⟨.Ipv4 3232235777, 8000⟩).length = 6 ∧
    Address.from_pb (Address.to_pb ⟨.Ipv6 1 2 3 4, 70⟩) =
      .value (.ok ⟨.Ipv6 1 2 3 4, 70⟩) :=
  ⟨C2_address_roundtrip ⟨.Ipv4 3232235777, 8000⟩
      (by norm_num [Address.wf, IpAddress.wf]),
   by decide,
   C2_address_roundtrip ⟨.Ipv6 1 2 3 4, 70⟩
      (by norm_num [Address.wf, IpAddress.wf])⟩

/-! ## C5: Address wire-length enforcement -/

/-- C5: `to_pb` emits exactly 6 bytes for an Ipv4 address (the four
big-endian address bytes then the two big-endian port bytes) and exactly
18 bytes for an Ipv6 address (sixteen address bytes then the port), and
`from_pb` fails on every byte length other than 6 and 18. -/
theorem C5_address_wire_lengths (ip ip0 ip1 ip2 ip3 port : Nat) (bytes : List Nat) :
    Address.to_pb ⟨.Ipv4 ip, port⟩ = u32_be_bytes ip ++ u16_be_bytes port ∧
    (Address.to_pb ⟨.Ipv4 ip, port⟩).length = 6 ∧
    Address.to_pb ⟨.Ipv6 ip0 ip1 ip2 ip3, port⟩ =
      u32_be_bytes ip0 ++ u32_be_bytes ip1 ++ u32_be_bytes ip2 ++ u32_be_bytes ip3 ++
        u16_be_bytes port ∧
    (Address.to_pb ⟨.Ipv6 ip0 ip1 ip2 ip3, port⟩).length = 18 ∧
    (bytes.length ≠ 6 → bytes.length ≠ 18 →
      Address.from_pb bytes = .value (.error "Invalid address size")) := by
  refine ⟨rfl, by simp [Address.to_pb, u32_be_bytes, u16_be_bytes],
    by simp [Address.to_pb, List.append_assoc],
    by simp [Address.to_pb, u32_be_bytes, u16_be_bytes], fun h6 h18 => ?_⟩
  simp only [Address.from_pb]
  rw [if_neg h6, if_neg h18]

/-- Witness for C5: a 7-byte input is rejected. -/
theorem C5_witness :
    Address.from_pb [0, 1, 2, 3, 4, 5, 6] = .value (.error "Invalid address size") :=
  (C5_address_wire_lengths 0 0 0 0 0 0 [0, 1, 2, 3, 4, 5, 6]).2.2.2.2
    (by decide) (by decide)

/-! ## C10: Address decoding never panics -/

/-- C10: `Address::from_pb` never reaches a failing `unwrap`: on every
input it returns a value, namely a decoded address when the length is 6
or 18 and the invalid-size error otherwise. -/
theorem C10_address_from_pb_no_panic (bytes : List Nat) :
    (∃ r, Address.from_pb bytes = .value r) ∧
    (bytes.length = 6 → ∃ a, Address.from_pb bytes = .value (.ok a)) ∧
    (bytes.length = 18 → ∃ a, Address.from_pb bytes = .value (.ok a)) ∧
    (bytes.length ≠ 6 → bytes.length ≠ 18 →
      Address.from_pb bytes = .value (.error "Invalid address size")) := by
  have h6 : bytes.length = 6 → ∃ a, Address.from_pb bytes = .value (.ok a) := by
    intro h
    obtain ⟨v, rest, hv, hrest⟩ := read_u32_be_total bytes (by omega)
    obtain ⟨p, rest2, hp, _⟩ := read_u16_be_total rest (by omega)
    refine ⟨⟨.Ipv4 v, p⟩, ?_⟩
    simp only [Address.from_pb]
    rw [if_pos h, hv]
    simp only [hp]
  have h18 : bytes.length = 18 → ∃ a, Address.from_pb bytes = .value (.ok a) := by
    intro h
    obtain ⟨v0, r0, hv0, hr0⟩ := read_u32_be_total bytes (by omega)
    obtain ⟨v1, r1, hv1, hr1⟩ := read_u32_be_total r0 (by omega)
    obtain ⟨v2, r2, hv2, hr2⟩ := read_u32_be_total r1 (by omega)
    obtain ⟨v3, r3, hv3, hr3⟩ := read_u32_be_total r2 (by omega)
    obtain ⟨p, r4, hp, _⟩ := read_u16_be_total r3 (by omega)
    refine ⟨⟨.Ipv6 v0 v1 v2 v3, p⟩, ?_⟩
    simp only [Address.from_pb]
    rw [if_neg (by omega), if_pos h, hv0]
    simp only [hv1, hv2, hv3, hp]
  have herr : bytes.length ≠ 6 → bytes.length ≠ 18 →
      Address.from_pb bytes = .value (.error "Invalid address size") := by
    intro ha hb
    simp only [Address.from_pb]
    rw [if_neg ha, if_neg hb]
  refine ⟨?_, h6, h18, herr⟩
  by_cases ha : bytes.length = 6
  · obtain ⟨a, hx⟩ := h6 ha
    exact ⟨.ok a, hx⟩
  by_cases hb : bytes.length = 18
  · obtain ⟨a, hx⟩ := h18 hb
    exact ⟨.ok a, hx⟩
  · exact ⟨.error "Invalid address size", herr ha hb⟩

/-- Witness for C10 at concrete inputs of lengths 6 and 3. -/
theorem C10_witness :
    (∃ a, Address.from_pb [192, 168, 1, 1, 31, 64] = .value (.ok a)) ∧
    Address.from_pb [9, 9, 9] = .value (.error "Invalid address size") :=
  ⟨(C10_address_from_pb_no_panic [192, 168, 1, 1, 31, 64]).2.1 (by decide),
   (C10_address_from_pb_no_panic [9, 9, 9]).2.2.2 (by decide) (by decide)⟩

/-! ## Signature helper lemmas -/

/-- A 33-byte list splits into its first 32 bytes and its last byte. -/
theorem take32_getD_decomp (l : List Nat) (h : l.length = 33) :
    l = l.take 32 ++ [l.getD 32 0] := by
  have h1 : l.drop 32 = l[32] :: l.drop 33 := List.drop_eq_getElem_cons (by omega)
  have h2 : l.drop 33 = [] := by
    rw [List.drop_eq_nil_iff]
    omega
  have h3 : l.getD 32 0 = l[32] := by
    rw [List.getD_eq_getElem?_getD, List.getElem?_eq_getElem (by omega)]
    rfl
  conv_lhs => rw [← List.take_append_drop 32 l]
  rw [h1, h2, h3]

/-- Taking the first 32 bytes of a 32-byte value with one byte appended
recovers the value. -/
theorem take32_append (s : List Nat) (v : Nat) (h : s.length = 32) :
    (s ++ [v]).take 32 = s := by
  rw [← h, List.take_left]

/-- Indexing a 32-byte value with one byte appended at position 32 yields
the appended byte. -/
theorem getD32_append (s : List Nat) (v : Nat) (h : s.length = 32) :
    (s ++ [v]).getD 32 0 = v := by
  rw [List.getD_eq_getElem?_getD, List.getElem?_append_right (by omega)]
  simp [h]

/-- The wire/domain round trip for signatures: on any signature whose `r`
and `s` have their `[u8; 32]` lengths, `from_pb` inverts `to_pb`. -/
theorem signature_roundtrip (sig : Signature) (h : sig.wf) :
    Signature.from_pb (Signature.to_pb sig) = .ok sig := by
  obtain ⟨r, s, v⟩ := sig
  obtain ⟨hr, hs⟩ := h
  simp only [Signature.to_pb, Signature.from_pb]
  rw [if_pos ⟨hr, by simp [hs]⟩]
  rw [take32_append s v hs, getD32_append s v hs]

/-! ## C3: signature wire validation -/

/-- C3: `Signature::from_pb` succeeds exactly on a wire struct carrying
the Secp256k1 variant with a 32-byte `r` and a 33-byte `s`; such an `s`
splits as the 32-byte `s` value followed by the recovery byte `v`; every
other length combination is rejected, as is an unset variant tag. -/
theorem C3_signature_validation (pb : SignaturePb) :
    ((∃ sig, Signature.from_pb pb = .ok sig) ↔
      ∃ x, pb = some x ∧ x.r.length = 32 ∧ x.s.length = 33) ∧
    (∀ x, pb = some x → x.r.length = 32 → x.s.length = 33 →
      Signature.from_pb pb = .ok (.Secp256k1 ⟨x.r, x.s.take 32, x.s.getD 32 0⟩) ∧
      x.s = x.s.take 32 ++ [x.s.getD 32 0]) ∧
    (∀ x, pb = some x → ¬(x.r.length = 32 ∧ x.s.length = 33) →
      Signature.from_pb pb = .error "Invalid signature byte length") ∧
    (pb = none → Signature.from_pb pb = .error "Invalid signature type") := by
  refine ⟨?_, fun x hx h32 h33 => ?_, fun x hx hno => ?_, fun hx => ?_⟩
  · cases pb with
    | none => simp [Signature.from_pb]
    | some x =>
      by_cases hc : x.r.length = 32 ∧ x.s.length = 33
      · simp [Signature.from_pb, hc]
      · simp [Signature.from_pb, hc]
  · subst hx
    refine ⟨?_, take32_getD_decomp x.s h33⟩
    simp only [Signature.from_pb]
    rw [if_pos ⟨h32, h33⟩]
  · subst hx
    simp only [Signature.from_pb]
    rw [if_neg hno]
  · subst hx
    rfl

/-- Witness for C3 at concrete wire structs: valid lengths are accepted,
a 31-byte `r` is rejected, and an unset variant is rejected. -/
theorem C3_witness :
    Signature.from_pb (some ⟨List.replicate 32 1, List.replicate 33 2⟩) =
      .ok (.Secp256k1 ⟨List.replicate 32 1, (List.replicate 33 2).take 32,
        (List.replicate 33 2).getD 32 0⟩) ∧
    Signature.from_pb (some ⟨List.replicate 31 1, List.replicate 33 2⟩) =
      .error "Invalid signature byte length" ∧
    Signature.from_pb none = .error "Invalid signature type" :=
  ⟨((C3_signature_validation (some ⟨List.replicate 32 1, List.replicate 33 2⟩)).2.1
      _ rfl (by simp) (by simp)).1,
   (C3_signature_validation (some ⟨List.replicate 31 1, List.replicate 33 2⟩)).2.2.1
      _ rfl (by simp),
   (C3_signature_validation none).2.2.2 rfl⟩

/-! ## C4: leadership proof and signature round trips -/

/-- C4: `from_pb` inverts `to_pb` on every leadership proof, including
one with an absent `block_sig`, and on every signature; signatures are
required to carry their Rust `[u8; 32]` field lengths. -/
theorem C4_leadership_roundtrip (p : LeadershipProof) (sig : Signature)
    (hp : ∀ s, p.block_sig = some s → s.wf) (hs : sig.wf) :
    LeadershipProof.from_pb (LeadershipProof.to_pb p) = .ok p ∧
    Signature.from_pb (Signature.to_pb sig) = .ok sig := by
  refine ⟨?_, signature_roundtrip sig hs⟩
  obtain ⟨bs, infl⟩ := p
  cases bs with
  | none => rfl
  | some s =>
    have hwf : s.wf := hp s rfl
    simp only [LeadershipProof.to_pb, LeadershipProof.from_pb, Option.map_some',
      signature_roundtrip s hwf]
    rfl

/-- Witness for C4: a proof with an absent signature and a proof carrying
a concrete signature both round-trip. -/
theorem C4_witness :
    LeadershipProof.from_pb (LeadershipProof.to_pb ⟨none, 77⟩) = .ok ⟨none, 77⟩ ∧
    LeadershipProof.from_pb (LeadershipProof.to_pb
        ⟨some (.Secp256k1 ⟨List.replicate 32 4, List.replicate 32 5, 27⟩), 9⟩) =
      .ok ⟨some (.Secp256k1 ⟨List.replicate 32 4, List.replicate 32 5, 27⟩), 9⟩ :=
  ⟨(C4_leadership_roundtrip ⟨none, 77⟩
      (.Secp256k1 ⟨List.replicate 32 0, List.replicate 32 0, 0⟩)
      (fun s h => by simp at h)
      (by constructor <;> simp)).1,
   (C4_leadership_roundtrip
      ⟨some (.Secp256k1 ⟨List.replicate 32 4, List.replicate 32 5, 27⟩), 9⟩
      (.Secp256k1 ⟨List.replicate 32 0, List.replicate 32 0, 0⟩)
      (fun s h => by
        simp only [Option.some_inj] at h
        subst h
        constructor <;> simp)
      (by constructor <;> simp)).1⟩

/-! ## Sequence conversion helper lemmas -/

/-- `vec_from_pb` succeeds with `l` exactly when converting each element
in order gives exactly the elements of `l`. -/
theorem vec_from_pb_ok_iff (g : β → Except ε α) (pb : List β) (l : List α) :
    vec_from_pb g pb = .ok l ↔ pb.map g = l.map Except.ok := by
  induction pb generalizing l with
  | nil => cases l <;> simp [vec_from_pb]
  | cons x xs ih =>
    cases hgx : g x with
    | error e => cases l <;> simp [vec_from_pb, hgx]
    | ok y =>
      cases l with
      | nil =>
        simp only [vec_from_pb, hgx, List.map_cons, List.map_nil]
        cases hr : vec_from_pb g xs <;> simp
      | cons z zs =>
        simp only [vec_from_pb, hgx, List.map_cons, List.cons.injEq, Except.ok.injEq]
        cases hr : vec_from_pb g xs with
        | error e =>
          constructor
          · intro h
            exact absurd h (by simp)
          · rintro ⟨h1, h2⟩
            rw [(ih zs).mpr h2] at hr
            simp at hr
        | ok ys =>
          simp only [Except.ok.injEq, List.cons.injEq]
          constructor
          · rintro ⟨h1, h2⟩
            exact ⟨h1, (ih zs).mp (by rw [hr, h2])⟩
          · rintro ⟨h1, h2⟩
            have hzs := (ih zs).mpr h2
            rw [hr] at hzs
            injection hzs with h3
            exact ⟨h1, h3⟩

/-- `vec_from_pb` returns the first element error: when every element
before `b` converts and `b` fails with `e`, the whole conversion fails
with `e`. -/
theorem vec_from_pb_first_error (g : β → Except ε α) (pre rest : List β) (b : β) (e : ε)
    (hpre : ∀ x ∈ pre, ∃ y, g x = .ok y) (hb : g b = .error e) :
    vec_from_pb g (pre ++ b :: rest) = .error e := by
  induction pre with
  | nil => simp [vec_from_pb, hb]
  | cons p ps ih =>
    obtain ⟨y, hy⟩ := hpre p (by simp)
    rw [List.cons_append]
    simp only [vec_from_pb, hy]
    rw [ih (fun x hx => hpre x (by simp [hx]))]

/-! ## C6: element-wise sequence conversion -/

/-- C6: `Vec::to_pb` converts element-wise, preserving length and order;
`Vec::from_pb` succeeds exactly when every element converts, yielding the
element-wise conversions in order, and fails with the first element error
as soon as any element fails. -/
theorem C6_vec_elementwise {α β ε : Type} (f : α → β) (g : β → Except ε α)
    (v : List α) (pb pb2 pre rest : List β) (b : β) (e : ε) (l : List α) :
    ((vec_to_pb f v).length = v.length ∧
      ∀ i : Nat, (vec_to_pb f v)[i]? = (v[i]?).map f) ∧
    (vec_from_pb g pb = .ok l ↔ pb.map g = l.map Except.ok) ∧
    (pb2 = pre ++ b :: rest → (∀ x ∈ pre, ∃ y, g x = .ok y) → g b = .error e →
      vec_from_pb g pb2 = .error e) := by
  refine ⟨⟨by simp [vec_to_pb], fun i => by simp [vec_to_pb]⟩,
    vec_from_pb_ok_iff g pb l, fun hsplit hpre hb => ?_⟩
  subst hsplit
  exact vec_from_pb_first_error g pre rest b e hpre hb

/-- Witness for C6, with the 20-byte-array conversion as element type: a
sequence whose second element has the wrong length fails with that
element's error, and a sequence of valid elements converts to them. -/
theorem C6_witness :
    vec_from_pb array20_from_pb [List.replicate 20 0, [1]] =
      .error "Invalid array length" ∧
    vec_from_pb array20_from_pb [List.replicate 20 3] = .ok [List.replicate 20 3] :=
  ⟨(C6_vec_elementwise array20_to_pb array20_from_pb [] []
      [List.replicate 20 0, [1]] [List.replicate 20 0] [] [1]
      "Invalid array length" []).2.2 rfl
      (fun x hx => ⟨List.replicate 20 0, by
        simp only [List.mem_singleton] at hx
        subst hx
        rfl⟩) rfl,
   (C6_vec_elementwise array20_to_pb array20_from_pb [] [List.replicate 20 3] [] [] []
      [] "unused" [List.replicate 20 3]).2.1.mpr rfl⟩

/-! ## C8: the build_peers builder -/

/-- C8: `build_peers(magic, socket_addrs)` yields a message carrying the
supplied magic and a `Peers` command with one address per input socket
address, in order; at the spec's concrete input it yields exactly the
expected message. -/
theorem C8_build_peers (magic : Nat) (addrs : List SocketAddr) :
    (build_peers magic addrs).magic = magic ∧
    (build_peers magic addrs).kind = .Peers (addrs.map socketAddrToAddress) ∧
    (∀ sa, socketAddrToAddress (.v4 192 168 1 1 8000) = sa → sa = ⟨.Ipv4 3232235777, 8000⟩) ∧
    build_peers 0xABCD [.v4 192 168 1 1 8000] =
      ⟨.Peers [⟨.Ipv4 3232235777, 8000⟩], 0xABCD⟩ := by
  refine ⟨rfl, rfl, fun sa hsa => ?_, by decide⟩
  rw [← hsa]
  decide

/-- Witness for C8 at the spec's concrete socket address. -/
theorem C8_witness :
    socketAddrToAddress (.v4 192 168 1 1 8000) = ⟨.Ipv4 3232235777, 8000⟩ :=
  (C8_build_peers 0xABCD []).2.2.1 (socketAddrToAddress (.v4 192 168 1 1 8000)) rfl

/-! ## C9: sign and verify are total only on 32-byte digests -/

/-- C9: both `sign` and `verify` hit the failing `unwrap` of
`Message::from_slice` (and so panic) on any data that is not exactly 32
bytes; on 32-byte data the `unwrap` never fails and both return an
outcome value, for every behaviour of the underlying curve operations. -/
theorem C9_digest_length {σ : Type} (secpSign : List Nat → σ)
    (secpVerify : List Nat → Bool) (data : List Nat) :
    (data.length ≠ 32 →
      sign secpSign data = .panicked ∧ verify secpVerify data = .panicked) ∧
    (data.length = 32 →
      (∃ s, sign secpSign data = .value s) ∧ ∃ r, verify secpVerify data = .value r) := by
  constructor
  · intro h
    constructor <;> simp [sign, verify, message_from_slice, h]
  · intro h
    refine ⟨⟨secpSign data, ?_⟩,
      ⟨if secpVerify data then .ok () else .error "Fail in verify process", ?_⟩⟩ <;>
      simp [sign, verify, message_from_slice, h]

/-- Witness for C9: a 31-byte digest panics in both operations, a 32-byte
digest returns a value in both, for concrete curve operations. -/
theorem C9_witness :
    sign (fun _ => 0) (List.replicate 31 0) = (.panicked : RunResult Nat) ∧
    verify (fun _ => true) (List.replicate 31 0) = .panicked ∧
    (∃ s, sign (fun _ => 0) (List.replicate 32 0) = (.value s : RunResult Nat)) ∧
    (∃ r, verify (fun _ => true) (List.replicate 32 0) = .value r) :=
  ⟨((C9_digest_length (fun _ => 0) (fun _ => true) (List.replicate 31 0)).1
      (by decide)).1,
   ((C9_digest_length (fun _ => (0 : Nat)) (fun _ => true) (List.replicate 31 0)).1
      (by decide)).2,
   ((C9_digest_length (fun _ => 0) (fun _ => true) (List.replicate 32 0)).2
      (by decide)).1,
   ((C9_digest_length (fun _ => (0 : Nat)) (fun _ => true) (List.replicate 32 0)).2
      (by decide)).2⟩

end Witnet
